import Mathlib

/-!
Verification of the record-store micro-logic of the fastapi-learning
repository.  Two variants are embedded:

* `InMem` — the in-memory dictionary store of
  `fastapi-hello-world/_main.py`: global dicts `items_db` / `tasks_db`
  with counters `next_id` / `next_task_id`, and the operations
  `list_items`, `get_item`, `create_item`, `delete_item`,
  `search_items_and_tasks`.  Python dicts keyed by int are modelled as
  insertion-ordered association lists; every operation is written in
  state-passing style `Store → args → result × Store` so that frame
  conditions are expressible.

* `Pg` — the row-table variant of
  `skill/assets/crud-postgres/app/routers/items.py` (and the identical
  merge loop of `fastapi-hello-world/main.py::update_task`): the table is
  a list of rows in insertion order, `list_items` is the SQL
  `offset(skip).limit(limit)` over it, and `update_item` applies the
  pydantic `model_dump(exclude_unset=True)` merge, where an update field
  is `none` exactly when the client did not supply the key.

Python `float` prices are modelled as `ℚ`; the claims under study only
compare prices, never compute with them.

The search endpoint has a reachable crash: `item.model_dump()` always
stores the `description` key (as `None` when absent), so
`item_data.get("description", "")` yields `None`, and when the name does
not contain the query the short-circuited `or` evaluates
`desc.lower()` and raises `AttributeError` (HTTP 500).  The search
embedding therefore returns `Except PyErr (List SearchResult)`, with the
exception propagating exactly as in the Python evaluation order.
-/

/-- ASCII-case-insensitive substring test: Python
`needle.lower() in hay.lower()` from the search endpoint.
`beginsWith hay needle` is true when `needle` is an initial segment of
`hay`. -/
def beginsWith : List Char → List Char → Bool
  | _, [] => true
  | [], _ :: _ => false
  | a :: as, b :: bs => (a == b) && beginsWith as bs

/-- `containsSub needle hay` is true when `needle` occurs contiguously in
`hay`. -/
def containsSub (needle : List Char) : List Char → Bool
  | [] => beginsWith [] needle
  | h :: t => beginsWith (h :: t) needle || containsSub needle t

/-- Python `needle.lower() in hay.lower()` (lowering character-wise, as
`str.lower` does for the ASCII strings of this code base). -/
def strContains (hay needle : String) : Bool :=
  containsSub (needle.data.map Char.toLower) (hay.data.map Char.toLower)

namespace InMem

/-- Fields of an item (`_main.py` class `Item`): `name: str`,
`description: Optional[str]`, `price: float`. -/
structure Item where
  name : String
  description : Option String
  price : ℚ
deriving DecidableEq

/-- Fields of a task (`_main.py` class `Task`). -/
structure Task where
  title : String
  description : Option String
  status : String
  priority : Int
deriving DecidableEq

/-- One entry of the `/search` response (`_main.py` class
`SearchResult`). -/
structure SearchResult where
  id : Int
  title : String
  item_type : String
deriving DecidableEq

/-- The module-level mutable state of `_main.py`: the two dicts and the
two id counters.  A Python dict keyed by `int` is an insertion-ordered
association list. -/
structure Store where
  items_db : List (Int × Item)
  next_id : Int
  tasks_db : List (Int × Task)
  next_task_id : Int
deriving DecidableEq

/-- The initial state of `_main.py`: empty dicts, both counters at 1. -/
def emptyStore : Store := ⟨[], 1, [], 1⟩

/-- Python `id in db`. -/
def dbHas (db : List (Int × α)) (id : Int) : Bool :=
  db.any (fun p => p.1 == id)

/-- Python `db[id]` (as a total lookup returning `none` when absent). -/
def dbGet (db : List (Int × α)) (id : Int) : Option α :=
  (db.find? (fun p => p.1 == id)).map Prod.snd

/-- Python `db[id] = v`: overwrite in place when the key exists,
otherwise append (dicts preserve insertion order). -/
def dbSet : List (Int × α) → Int → α → List (Int × α)
  | [], id, v => [(id, v)]
  | p :: t, id, v => if p.1 == id then (id, v) :: t else p :: dbSet t id v

/-- Python `del db[id]`. -/
def dbDel (db : List (Int × α)) (id : Int) : List (Int × α) :=
  db.filter (fun p => !(p.1 == id))

/-- `GET /items` (`_main.py::list_items`): all items, each paired with
its id, in dict (insertion) order. -/
def list_items (s : Store) : List (Int × Item) × Store :=
  (s.items_db, s)

/-- `GET /items/{item_id}` (`_main.py::get_item`): 404 (here `none`) when
the id is absent, otherwise the record with its id. -/
def get_item (s : Store) (item_id : Int) : Option (Int × Item) × Store :=
  match dbGet s.items_db item_id with
  | none => (none, s)
  | some it => (some (item_id, it), s)

/-- `POST /items` (`_main.py::create_item`): assign `next_id`, store,
increment the counter, return the stored record with its id. -/
def create_item (s : Store) (item : Item) : (Int × Item) × Store :=
  let item_id := s.next_id
  ((item_id, item),
    { s with items_db := dbSet s.items_db item_id item,
             next_id := s.next_id + 1 })

/-- `PUT /items/{item_id}` (`_main.py::update_item`): 404 when absent,
otherwise replace the whole stored record with the payload. -/
def update_item (s : Store) (item_id : Int) (item : Item) :
    Option (Int × Item) × Store :=
  if dbHas s.items_db item_id then
    (some (item_id, item), { s with items_db := dbSet s.items_db item_id item })
  else
    (none, s)

/-- `DELETE /items/{item_id}` (`_main.py::delete_item`): 404 when absent,
otherwise remove the entry; the success body carries the id. -/
def delete_item (s : Store) (item_id : Int) : Option Int × Store :=
  if dbHas s.items_db item_id then
    (some item_id, { s with items_db := dbDel s.items_db item_id })
  else
    (none, s)

/-- `min_price is not None and price < min_price` (the skip condition of
the item loop of `_main.py::search_items_and_tasks`). -/
def priceBelowMin (min_price : Option ℚ) (price : ℚ) : Bool :=
  match min_price with
  | some m => decide (price < m)
  | none => false

/-- `max_price is not None and price > max_price`. -/
def priceAboveMax (max_price : Option ℚ) (price : ℚ) : Bool :=
  match max_price with
  | some m => decide (m < price)
  | none => false

/-- `status and task_data.get("status") != status`: the task skip
condition; a Python string is truthy exactly when non-empty. -/
def statusExcluded (status : Option String) (taskStatus : String) : Bool :=
  match status with
  | some v => (v != "") && (taskStatus != v)
  | none => false

/-- A Python exception escaping an endpoint (surfaced as HTTP 500).  The
only one reachable in this code is the `AttributeError` raised by
`None.lower()` in the search item loop. -/
inductive PyErr
  | attributeError
deriving DecidableEq

/-- The price-filter tail of the item loop: skip the item when a price
filter rejects, otherwise emit the result entry. -/
def itemFilters (min_price max_price : Option ℚ)
    (p : Int × Item) : Option SearchResult :=
  if priceBelowMin min_price p.2.price then none
  else if priceAboveMax max_price p.2.price then none
  else some ⟨p.1, p.2.name, "item"⟩

/-- Body of the item loop of `_main.py::search_items_and_tasks`, with
Python's evaluation order: `query.lower() in name.lower()` first; only
when that is false is `desc.lower()` evaluated, where
`desc = item_data.get("description", "")` is `None` for an item stored
without a description (`model_dump` always stores the key), raising
`AttributeError`. -/
def itemHit (query : String) (min_price max_price : Option ℚ)
    (p : Int × Item) : Except PyErr (Option SearchResult) :=
  if strContains p.2.name query then
    .ok (itemFilters min_price max_price p)
  else
    match p.2.description with
    | none => .error .attributeError
    | some d =>
        if strContains d query then .ok (itemFilters min_price max_price p)
        else .ok none

/-- Body of the task loop: match the query against the title, then apply
the status filter. -/
def taskHit (query : String) (status : Option String)
    (p : Int × Task) : Option SearchResult :=
  if strContains p.2.title query then
    if statusExcluded status p.2.status then none
    else some ⟨p.1, p.2.title, "task"⟩
  else none

/-- The item loop of the search endpoint: accumulate hits in dict order;
an exception aborts the whole request, discarding any partial results. -/
def searchItems (query : String) (min_price max_price : Option ℚ) :
    List (Int × Item) → Except PyErr (List SearchResult)
  | [] => .ok []
  | p :: t =>
    match itemHit query min_price max_price p with
    | .error e => .error e
    | .ok o =>
      match searchItems query min_price max_price t with
      | .error e => .error e
      | .ok rest => .ok (o.toList ++ rest)

/-- `GET /search` (`_main.py::search_items_and_tasks`): scan `items_db`,
then `tasks_db`, appending hits to one result list; an exception in the
item loop propagates (HTTP 500) before the task loop runs, and in either
case the store is untouched. -/
def search_items_and_tasks (s : Store) (query : String)
    (min_price max_price : Option ℚ) (status : Option String) :
    Except PyErr (List SearchResult) × Store :=
  (match searchItems query min_price max_price s.items_db with
   | .error e => .error e
   | .ok itemResults =>
       .ok (itemResults ++ s.tasks_db.filterMap (taskHit query status)), s)

/-- One step of a client interaction used for the id-assignment claims:
either a create (with its payload) or a delete (with its target id). -/
inductive Op
  | create (item : Item)
  | delete (id : Int)

/-- State transition of one operation. -/
def applyOp (s : Store) : Op → Store
  | .create it => (create_item s it).2
  | .delete id => (delete_item s id).2

/-- Run a sequence of operations. -/
def runOps (s : Store) : List Op → Store
  | [] => s
  | o :: os => runOps (applyOp s o) os

/-- The ids handed out by the creates of a sequence, in order. -/
def createdIds (s : Store) : List Op → List Int
  | [] => []
  | .create it :: os =>
      (create_item s it).1.1 :: createdIds (applyOp s (.create it)) os
  | .delete id :: os => createdIds (applyOp s (.delete id)) os

end InMem

namespace Pg

/-- One row of the `items` table
(`Technical-Skills/.../app/models.py` class `Item`; the timestamp
columns play no part in the claims under study and are omitted). -/
structure ItemRow where
  id : Int
  name : String
  description : Option String
  price : ℚ
deriving DecidableEq

/-- `ItemUpdate` of `skill/assets/crud-postgres/app/schemas.py` under
`model_dump(exclude_unset=True)`: a field is `none` exactly when the
client did not supply the key.  `description` is a nullable column, so a
supplied value is itself an `Option`. -/
structure ItemUpdate where
  name : Option String
  description : Option (Option String)
  price : Option ℚ
deriving DecidableEq

/-- The update payload with no keys supplied. -/
def emptyUpdate : ItemUpdate := ⟨none, none, none⟩

/-- The `setattr` loop of `routers/items.py::update_item` (identical in
`fastapi-hello-world/main.py::update_task`): assign exactly the supplied
keys, leave the rest. -/
def applyItemUpdate (r : ItemRow) (u : ItemUpdate) : ItemRow :=
  { r with
    name := u.name.getD r.name
    description := u.description.getD r.description
    price := u.price.getD r.price }

/-- `SELECT ... WHERE id = item_id` returning at most one row. -/
def findRow (rows : List ItemRow) (item_id : Int) : Option ItemRow :=
  rows.find? (fun r => r.id == item_id)

/-- `GET /items/` (`routers/items.py::list_items`):
`select(Item).offset(skip).limit(limit)` over the table in insertion
order. -/
def list_items (rows : List ItemRow) (skip limit : Nat) : List ItemRow :=
  (rows.drop skip).take limit

/-- `PUT /items/{item_id}` (`routers/items.py::update_item`): 404 when no
row has the id, otherwise merge the supplied fields into the row, write
it back, and return it. -/
def update_item (rows : List ItemRow) (item_id : Int) (u : ItemUpdate) :
    Option ItemRow × List ItemRow :=
  match findRow rows item_id with
  | none => (none, rows)
  | some r =>
      let merged := applyItemUpdate r u
      (some merged,
        rows.map (fun x => if x.id == item_id then merged else x))

end Pg

/-! ## Basic facts about the dictionary model -/

namespace InMem

theorem dbGet_eq_none_iff (db : List (Int × α)) (id : Int) :
    dbGet db id = none ↔ dbHas db id = false := by
  simp [dbGet, dbHas, List.find?_eq_none, List.any_eq_true]

theorem dbGet_dbSet_self (db : List (Int × α)) (id : Int) (v : α) :
    dbGet (dbSet db id v) id = some v := by
  induction db with
  | nil =>
    simp [dbGet, dbSet]
  | cons a t ih =>
    by_cases ha : (a.1 == id) = true
    · rw [dbSet, if_pos ha, dbGet]
      simp
    · rw [dbSet, if_neg ha, dbGet, List.find?_cons_of_neg _ (by simpa using ha)]
      exact ih

theorem dbGet_dbDel_self (db : List (Int × α)) (id : Int) :
    dbGet (dbDel db id) id = none := by
  unfold dbGet dbDel
  have h : List.find? (fun p => p.1 == id)
      (List.filter (fun p => !(p.1 == id)) db) = none := by
    rw [List.find?_eq_none]
    intro x hx
    have hx2 := (List.mem_filter.1 hx).2
    simp only [Bool.not_eq_true'] at hx2
    simp [hx2]
  rw [h]
  rfl

end InMem

/-! ## Claim theorems for the in-memory store -/

open InMem

/-- C10: `get`, `list` and `search` never modify the store: the state
returned alongside the result — record mappings and both id counters —
is exactly the input state. -/
theorem read_ops_leave_store_unchanged (s : Store) (item_id : Int)
    (query : String) (min_price max_price : Option ℚ)
    (status : Option String) :
    (get_item s item_id).2 = s ∧ (list_items s).2 = s ∧
      (search_items_and_tasks s query min_price max_price status).2 = s := by
  refine ⟨?_, rfl, rfl⟩
  unfold get_item
  cases dbGet s.items_db item_id <;> rfl

/-- C9: searching with `status` equal to the empty string behaves
exactly as if no status filter were supplied (Python string truthiness
makes `""` falsy), so matching tasks of every status are returned. -/
theorem search_empty_status_is_no_filter (s : Store) (query : String)
    (min_price max_price : Option ℚ) :
    search_items_and_tasks s query min_price max_price (some "") =
      search_items_and_tasks s query min_price max_price none := by
  have h : taskHit query (some "") = taskHit query none := by
    funext p
    simp [taskHit, statusExcluded]
  rw [search_items_and_tasks, search_items_and_tasks, h]

/-- C6: `create` always succeeds (it is a total function), returns the
record `(next_id, fields)`, and an immediate `get` of that id returns an
equal record. -/
theorem create_then_get_returns_equal_record (s : Store) (item : Item) :
    (create_item s item).1 = (s.next_id, item) ∧
      (get_item (create_item s item).2 (create_item s item).1.1).1 =
        some (create_item s item).1 := by
  refine ⟨rfl, ?_⟩
  show (get_item _ s.next_id).1 = _
  unfold get_item create_item
  simp [dbGet_dbSet_self]

/-- Not-found behaviour of the id-keyed operations: `get`, `update` and
`delete` signal not-found (`none`) exactly when the id is absent from
`items_db`; the store is unchanged whenever not-found is signalled; and
after a successful `delete`, `get` of the same id signals not-found. -/
theorem notfound_exactly_when_absent (s : Store) (item_id : Int)
    (item : Item) :
    ((get_item s item_id).1 = none ↔ dbHas s.items_db item_id = false) ∧
    (get_item s item_id).2 = s ∧
    ((update_item s item_id item).1 = none ↔
      dbHas s.items_db item_id = false) ∧
    ((update_item s item_id item).1 = none →
      (update_item s item_id item).2 = s) ∧
    ((delete_item s item_id).1 = none ↔ dbHas s.items_db item_id = false) ∧
    ((delete_item s item_id).1 = none → (delete_item s item_id).2 = s) ∧
    (dbHas s.items_db item_id = true →
      (get_item (delete_item s item_id).2 item_id).1 = none) := by
  refine ⟨?_, ?_, ?_, ?_, ?_, ?_, ?_⟩
  · rw [← dbGet_eq_none_iff]
    unfold get_item
    cases dbGet s.items_db item_id <;> simp
  · unfold get_item
    cases dbGet s.items_db item_id <;> rfl
  · unfold update_item
    by_cases h : dbHas s.items_db item_id = true <;> simp [h]
  · unfold update_item
    by_cases h : dbHas s.items_db item_id = true <;> simp [h]
  · unfold delete_item
    by_cases h : dbHas s.items_db item_id = true <;> simp [h]
  · unfold delete_item
    by_cases h : dbHas s.items_db item_id = true <;> simp [h]
  · intro h
    unfold delete_item
    rw [if_pos h]
    unfold get_item
    simp [dbGet_dbDel_self]

/-- Closed instance of `notfound_exactly_when_absent`: in a store holding
item 1, deleting it and then getting it yields not-found. -/
theorem notfound_exactly_when_absent_witness :
    dbHas (Store.mk [(1, ⟨"A", none, 10⟩)] 2 [] 1).items_db 1 = true ∧
      (get_item (delete_item (Store.mk [(1, ⟨"A", none, 10⟩)] 2 [] 1) 1).2
          1).1 = none :=
  ⟨rfl, (notfound_exactly_when_absent
    (Store.mk [(1, ⟨"A", none, 10⟩)] 2 [] 1) 1 ⟨"A", none, 10⟩).2.2.2.2.2.2
    rfl⟩

/-! ## Id assignment across operation sequences -/

theorem applyOp_create_next_id (s : Store) (it : Item) :
    (applyOp s (.create it)).next_id = s.next_id + 1 := rfl

theorem applyOp_delete_next_id (s : Store) (id : Int) :
    (applyOp s (.delete id)).next_id = s.next_id := by
  unfold applyOp delete_item
  by_cases h : dbHas s.items_db id = true <;> simp [h]

theorem createdIds_sorted_and_bounded (ops : List Op) : ∀ s : Store,
    List.Sorted (· < ·) (createdIds s ops) ∧
      ∀ x ∈ createdIds s ops, s.next_id ≤ x := by
  induction ops with
  | nil =>
    intro s
    simp [createdIds]
  | cons o os ih =>
    intro s
    cases o with
    | create it =>
      obtain ⟨hs, hb⟩ := ih (applyOp s (.create it))
      have hnext := applyOp_create_next_id s it
      constructor
      · rw [createdIds, List.sorted_cons]
        refine ⟨fun b hbmem => ?_, hs⟩
        have := hb b hbmem
        have hhead : (create_item s it).1.1 = s.next_id := rfl
        rw [hhead]
        omega
      · intro x hx
        rw [createdIds] at hx
        rcases List.mem_cons.1 hx with h | h
        · rw [h]
          exact le_refl _
        · have := hb x h
          omega
    | delete id =>
      obtain ⟨hs, hb⟩ := ih (applyOp s (.delete id))
      have hnext := applyOp_delete_next_id s id
      refine ⟨hs, fun x hx => ?_⟩
      rw [createdIds] at hx
      have := hb x hx
      omega

/-- C3: starting from the empty store, the ids returned by the creates of
any sequence of create and delete operations are strictly increasing and
pairwise distinct — in particular an id is never handed out again after
the record holding it is deleted. -/
theorem created_ids_strictly_increasing (ops : List Op) :
    List.Sorted (· < ·) (createdIds emptyStore ops) ∧
      (createdIds emptyStore ops).Nodup := by
  obtain ⟨hs, -⟩ := createdIds_sorted_and_bounded ops emptyStore
  exact ⟨hs, hs.imp fun hab => ne_of_lt hab⟩

/-! ## Search characterization -/

theorem taskHit_eq_some_iff (query : String) (st : Option String)
    (p : Int × Task) (res : SearchResult) :
    taskHit query st p = some res ↔
      (strContains p.2.title query = true ∧
        statusExcluded st p.2.status = false ∧
        res = ⟨p.1, p.2.title, "task"⟩) := by
  unfold taskHit
  cases h1 : strContains p.2.title query <;>
    cases h2 : statusExcluded st p.2.status <;>
      simp_all
  exact eq_comm

theorem itemFilters_some (mp xp : Option ℚ) (p : Int × Item)
    (r : SearchResult) (h : itemFilters mp xp p = some r) :
    r = ⟨p.1, p.2.name, "item"⟩ := by
  unfold itemFilters at h
  split at h
  · exact absurd h (by simp)
  · split at h
    · exact absurd h (by simp)
    · exact (Option.some.inj h).symm

theorem itemHit_ok_some (query : String) (mp xp : Option ℚ)
    (p : Int × Item) (r : SearchResult)
    (h : itemHit query mp xp p = .ok (some r)) :
    r = ⟨p.1, p.2.name, "item"⟩ := by
  unfold itemHit at h
  split at h
  · exact itemFilters_some mp xp p r (Except.ok.inj h)
  · split at h
    · exact absurd h (by simp)
    · split at h
      · exact itemFilters_some mp xp p r (Except.ok.inj h)
      · exact absurd h (by simp)

theorem searchItems_ok_sublist (query : String) (mp xp : Option ℚ) :
    ∀ (db : List (Int × Item)) (L : List SearchResult),
      searchItems query mp xp db = .ok L →
        L.Sublist (db.map (fun p => ⟨p.1, p.2.name, "item"⟩)) ∧
          ∀ r ∈ L, r.item_type = "item" := by
  intro db
  induction db with
  | nil =>
    intro L h
    rw [searchItems] at h
    rw [← Except.ok.inj h]
    simp
  | cons p t ih =>
    intro L h
    rw [searchItems] at h
    cases hhit : itemHit query mp xp p with
    | error e =>
      rw [hhit] at h
      exact absurd h (by simp)
    | ok o =>
      rw [hhit] at h
      cases hrec : searchItems query mp xp t with
      | error e =>
        rw [hrec] at h
        exact absurd h (by simp)
      | ok rest =>
        rw [hrec] at h
        have hL : Option.toList o ++ rest = L := Except.ok.inj h
        obtain ⟨hsub, htag⟩ := ih rest hrec
        rw [← hL]
        cases o with
        | none =>
          refine ⟨?_, ?_⟩
          · simpa using hsub.cons (⟨p.1, p.2.name, "item"⟩ : SearchResult)
          · simpa using htag
        | some r =>
          have hr : r = ⟨p.1, p.2.name, "item"⟩ :=
            itemHit_ok_some query mp xp p r hhit
          refine ⟨?_, ?_⟩
          · simp only [Option.toList, List.singleton_append]
            rw [hr]
            exact hsub.cons₂ _
          · intro x hx
            simp only [Option.toList, List.singleton_append,
              List.mem_cons] at hx
            rcases hx with hx | hx
            · rw [hx, hr]
            · exact htag x hx

theorem filterMap_sublist_map (f : α → Option β) (g : α → β)
    (h : ∀ a b, f a = some b → b = g a) :
    ∀ l : List α, (l.filterMap f).Sublist (l.map g) := by
  intro l
  induction l with
  | nil => simp
  | cons a t ih =>
    rw [List.filterMap_cons, List.map_cons]
    cases hf : f a with
    | none => exact ih.cons (g a)
    | some b =>
      rw [h a b hf]
      exact ih.cons₂ (g a)

/-- C8 counterexample: the claim quantifies over every store, but at the
store holding the item `{name:"Cherry", description:None, price:3}` a
search for `"item"` raises `AttributeError`, so no items-then-tasks
response list is produced at all. -/
theorem search_crash_no_grouped_response :
    (search_items_and_tasks ⟨[(4, ⟨"Cherry", none, 3⟩)], 5, [], 1⟩
        "item" none none none).1 = .error .attributeError ∧
      ¬ ∃ A B : List SearchResult,
        (search_items_and_tasks ⟨[(4, ⟨"Cherry", none, 3⟩)], 5, [], 1⟩
            "item" none none none).1 = .ok (A ++ B) := by
  refine ⟨rfl, ?_⟩
  rintro ⟨A, B, h⟩
  have h0 : (search_items_and_tasks ⟨[(4, ⟨"Cherry", none, 3⟩)], 5, [], 1⟩
      "item" none none none).1 = Except.error PyErr.attributeError := rfl
  rw [h0] at h
  exact Except.noConfusion h

/-- C8 (amended): whenever search completes without raising — that is,
whenever it returns a result list at all — the response is the matching
items followed by the matching tasks: it splits as `A ++ B` where `A` is
an order-preserving selection from the item collection (all tagged
`"item"`) and `B` one from the task collection (all tagged `"task"`);
the two groups are never interleaved. -/
theorem search_items_precede_tasks (s : Store) (query : String)
    (mp xp : Option ℚ) (st : Option String) (res : List SearchResult)
    (h : (search_items_and_tasks s query mp xp st).1 = .ok res) :
    ∃ A B, res = A ++ B ∧
      A.Sublist (s.items_db.map (fun p => ⟨p.1, p.2.name, "item"⟩)) ∧
      B.Sublist (s.tasks_db.map (fun p => ⟨p.1, p.2.title, "task"⟩)) ∧
      (∀ r ∈ A, r.item_type = "item") ∧
      (∀ r ∈ B, r.item_type = "task") := by
  unfold search_items_and_tasks at h
  cases hsi : searchItems query mp xp s.items_db with
  | error e =>
    rw [hsi] at h
    exact absurd h (by simp)
  | ok L =>
    rw [hsi] at h
    have hres : res = L ++ s.tasks_db.filterMap (taskHit query st) :=
      (Except.ok.inj h).symm
    obtain ⟨hsub, htag⟩ :=
      searchItems_ok_sublist query mp xp s.items_db L hsi
    refine ⟨L, s.tasks_db.filterMap (taskHit query st), hres, hsub, ?_,
      htag, ?_⟩
    · exact filterMap_sublist_map _ _
        (fun a b hf => ((taskHit_eq_some_iff query st a b).1 hf).2.2) _
    · intro r hr
      obtain ⟨a, -, hf⟩ := List.mem_filterMap.1 hr
      rw [((taskHit_eq_some_iff query st a r).1 hf).2.2]

/-- Closed instance of `search_items_precede_tasks` on a store holding
one matching item and one matching task. -/
theorem search_items_precede_tasks_witness :
    (search_items_and_tasks
        ⟨[(1, ⟨"Item A", some "x", 5⟩)], 2,
          [(7, ⟨"Item task", none, "pending", 3⟩)], 8⟩
        "item" none none none).1 =
      .ok [⟨1, "Item A", "item"⟩, ⟨7, "Item task", "task"⟩] ∧
    ∃ A B, ([⟨1, "Item A", "item"⟩, ⟨7, "Item task", "task"⟩] :
          List SearchResult) = A ++ B ∧
      A.Sublist ((⟨[(1, ⟨"Item A", some "x", 5⟩)], 2,
          [(7, ⟨"Item task", none, "pending", 3⟩)], 8⟩ :
            Store).items_db.map (fun p => ⟨p.1, p.2.name, "item"⟩)) ∧
      B.Sublist ((⟨[(1, ⟨"Item A", some "x", 5⟩)], 2,
          [(7, ⟨"Item task", none, "pending", 3⟩)], 8⟩ :
            Store).tasks_db.map (fun p => ⟨p.1, p.2.title, "task"⟩)) ∧
      (∀ r ∈ A, r.item_type = "item") ∧
      (∀ r ∈ B, r.item_type = "task") :=
  ⟨rfl,
    search_items_precede_tasks
      ⟨[(1, ⟨"Item A", some "x", 5⟩)], 2,
        [(7, ⟨"Item task", none, "pending", 3⟩)], 8⟩
      "item" none none none
      [⟨1, "Item A", "item"⟩, ⟨7, "Item task", "task"⟩] rfl⟩

/-- C2 (code bug): `search` does not return exactly the matching records
for every store: over the single ordinary item
`{name:"Apple", description:None, price:5}` — `description` defaults to
`None` — a search for `"item"` should return the empty match list, but
the code evaluates `None.lower()` and raises `AttributeError`
(HTTP 500).  The dead `""` default in
`item_data.get("description", "")` shows missing descriptions were meant
to be treated as empty text; `model_dump()` always stores the key, so
the default never applies. -/
theorem search_crashes_instead_of_matching :
    (search_items_and_tasks ⟨[(1, ⟨"Apple", none, 5⟩)], 2, [], 1⟩
        "item" none none none).1 = .error .attributeError ∧
      (search_items_and_tasks ⟨[(1, ⟨"Apple", none, 5⟩)], 2, [], 1⟩
          "item" none none none).1 ≠ .ok [] := by
  refine ⟨rfl, ?_⟩
  intro h
  have h0 : (search_items_and_tasks ⟨[(1, ⟨"Apple", none, 5⟩)], 2, [], 1⟩
      "item" none none none).1 = Except.error PyErr.attributeError := rfl
  rw [h0] at h
  exact Except.noConfusion h

/-- C5 (code bug): not-found is not the only failure mode of the
operations: searching `"task"` over the store holding
`{name:"Banana", description:None, price:7}` raises `AttributeError`
(HTTP 500), a failure distinct from not-found.  The id-keyed operations
themselves fail only with not-found, as the not-found development above
proves. -/
theorem failure_mode_beyond_notfound :
    (search_items_and_tasks ⟨[(2, ⟨"Banana", none, 7⟩)], 3, [], 1⟩
        "task" none none none).1 = .error .attributeError := rfl

/-! ## Claim theorems for the row-table variant -/

/-- C1: when the id is present, partial update merges exactly the
supplied keys into the row and returns the merged row: a supplied field
takes the supplied value, an absent field keeps the stored value, and
the id is untouched. -/
theorem update_overwrites_only_supplied_keys (rows : List Pg.ItemRow)
    (item_id : Int) (u : Pg.ItemUpdate) (r : Pg.ItemRow)
    (h : Pg.findRow rows item_id = some r) :
    (Pg.update_item rows item_id u).1 = some (Pg.applyItemUpdate r u) ∧
    (∀ v, u.name = some v → (Pg.applyItemUpdate r u).name = v) ∧
    (u.name = none → (Pg.applyItemUpdate r u).name = r.name) ∧
    (∀ v, u.description = some v →
      (Pg.applyItemUpdate r u).description = v) ∧
    (u.description = none →
      (Pg.applyItemUpdate r u).description = r.description) ∧
    (∀ v, u.price = some v → (Pg.applyItemUpdate r u).price = v) ∧
    (u.price = none → (Pg.applyItemUpdate r u).price = r.price) ∧
    (Pg.applyItemUpdate r u).id = r.id := by
  refine ⟨?_, ?_, ?_, ?_, ?_, ?_, ?_, rfl⟩
  · unfold Pg.update_item
    rw [h]
  · intro v hv
    simp [Pg.applyItemUpdate, hv]
  · intro hv
    simp [Pg.applyItemUpdate, hv]
  · intro v hv
    simp [Pg.applyItemUpdate, hv]
  · intro hv
    simp [Pg.applyItemUpdate, hv]
  · intro v hv
    simp [Pg.applyItemUpdate, hv]
  · intro hv
    simp [Pg.applyItemUpdate, hv]

/-- Closed instance of `update_overwrites_only_supplied_keys`: updating
the row `{name:"A", price:10}` with the partial payload `{price:20}`
yields `{name:"A", price:20}`. -/
theorem update_overwrites_only_supplied_keys_witness :
    Pg.findRow [⟨1, "A", none, 10⟩] 1 = some ⟨1, "A", none, 10⟩ ∧
      (Pg.update_item [⟨1, "A", none, 10⟩] 1 ⟨none, none, some 20⟩).1 =
        some ⟨1, "A", none, 20⟩ :=
  ⟨rfl,
    (update_overwrites_only_supplied_keys [⟨1, "A", none, 10⟩] 1
      ⟨none, none, some 20⟩ ⟨1, "A", none, 10⟩ rfl).1⟩

/-- C7: when the id is present (ids being unique, as for
counter-assigned primary keys), updating with the empty partial payload
returns the stored row unchanged and leaves the table unchanged. -/
theorem update_with_empty_payload_is_identity (rows : List Pg.ItemRow)
    (item_id : Int) (r : Pg.ItemRow)
    (h : Pg.findRow rows item_id = some r)
    (hn : (rows.map Pg.ItemRow.id).Nodup) :
    Pg.update_item rows item_id Pg.emptyUpdate = (some r, rows) := by
  have hfind : rows.find? (fun x => x.id == item_id) = some r := h
  have hmem : r ∈ rows := List.mem_of_find?_eq_some hfind
  have hrid := List.find?_some hfind
  have hmap : rows.map
      (fun x => if x.id == item_id then Pg.applyItemUpdate r Pg.emptyUpdate
        else x) = rows := by
    have hfun : ∀ x ∈ rows,
        (if x.id == item_id then Pg.applyItemUpdate r Pg.emptyUpdate else x) =
          id x := by
      intro x hx
      by_cases hxid : (x.id == item_id) = true
      · have hxr : x = r := List.inj_on_of_nodup_map hn hx hmem
          (by rw [eq_of_beq hxid, eq_of_beq hrid])
        rw [if_pos hxid, hxr]
        rfl
      · rw [if_neg hxid]
        rfl
    rw [List.map_congr_left hfun, List.map_id]
  simp only [Pg.update_item, h]
  rw [hmap]
  rfl

/-- Closed instance of `update_with_empty_payload_is_identity` on a
two-row table. -/
theorem update_with_empty_payload_is_identity_witness :
    Pg.findRow [⟨1, "A", none, 10⟩, ⟨2, "B", none, 5⟩] 2 =
        some ⟨2, "B", none, 5⟩ ∧
      (([⟨1, "A", none, 10⟩, ⟨2, "B", none, 5⟩].map Pg.ItemRow.id).Nodup) ∧
      Pg.update_item [⟨1, "A", none, 10⟩, ⟨2, "B", none, 5⟩] 2
          Pg.emptyUpdate =
        (some ⟨2, "B", none, 5⟩, [⟨1, "A", none, 10⟩, ⟨2, "B", none, 5⟩]) :=
  ⟨rfl, by decide,
    update_with_empty_payload_is_identity
      [⟨1, "A", none, 10⟩, ⟨2, "B", none, 5⟩] 2 ⟨2, "B", none, 5⟩ rfl
      (by decide)⟩

/-- C4: `list(skip, limit)` returns the stored rows in insertion order,
omitting the first `skip` and returning at most `limit`: the result has
length `min limit (n - skip)` and its `i`-th entry is the `(skip+i)`-th
stored row. -/
theorem list_items_paginates_in_order (rows : List Pg.ItemRow)
    (skip limit : Nat) (_h1 : 1 ≤ limit) (_h2 : limit ≤ 100) :
    (Pg.list_items rows skip limit).length =
        min limit (rows.length - skip) ∧
      ∀ i, (hi : i < (Pg.list_items rows skip limit).length) →
        ∃ hj : skip + i < rows.length,
          (Pg.list_items rows skip limit).get ⟨i, hi⟩ =
            rows.get ⟨skip + i, hj⟩ := by
  have hlen : (Pg.list_items rows skip limit).length =
      min limit (rows.length - skip) := by
    simp [Pg.list_items]
  refine ⟨hlen, fun i hi => ?_⟩
  have hj : skip + i < rows.length := by
    rw [hlen] at hi
    omega
  refine ⟨hj, ?_⟩
  simp only [Pg.list_items, List.get_eq_getElem]
  rw [List.getElem_take, List.getElem_drop]

/-- Closed instance of `list_items_paginates_in_order`: over 15 inserted
rows, `list(skip=5, limit=5)` returns rows 6 through 10 in insertion
order. -/
theorem list_items_paginates_in_order_witness :
    1 ≤ 5 ∧ 5 ≤ 100 ∧
      (Pg.list_items ((List.range 15).map
            (fun i => ⟨(i : Int) + 1, "Item", none, (i : ℚ)⟩)) 5 5).length =
        min 5 (((List.range 15).map
            (fun i => (⟨(i : Int) + 1, "Item", none, (i : ℚ)⟩ :
              Pg.ItemRow))).length - 5) ∧
      Pg.list_items ((List.range 15).map
            (fun i => ⟨(i : Int) + 1, "Item", none, (i : ℚ)⟩)) 5 5 =
        [⟨6, "Item", none, 5⟩, ⟨7, "Item", none, 6⟩, ⟨8, "Item", none, 7⟩,
          ⟨9, "Item", none, 8⟩, ⟨10, "Item", none, 9⟩] :=
  ⟨by decide, by decide,
    (list_items_paginates_in_order
      ((List.range 15).map
        (fun i => ⟨(i : Int) + 1, "Item", none, (i : ℚ)⟩)) 5 5
      (by decide) (by decide)).1,
    by decide⟩
